import Mathlib

/-!
Verification of the transport / response-interpretation core of the `ika`
laboratory-instrument driver package (`ika/util.py`, `ika/driver.py`).

The Python code is shallowly embedded:

* `decodeResponse` embeds the decode chain of `Client._write_and_read`
  (`ika/util.py`, lines 44-79) acting on a command string and the
  whitespace-stripped response line, producing either a returned Python
  value or a raised exception, together with a flag recording whether the
  stream-draining helper `Client._clear` was invoked.
* `handleCommunication`, `handleConnection` and `writeAndRead` embed the
  connection-state manipulation of `TcpClient` (timeout counting, closing
  at the ceiling, reconnect attempts); the nondeterministic outcomes of
  the underlying socket operations are passed in explicitly.
* `tcpInit` embeds the address parsing of `TcpClient.__init__`, with
  `pySplit` embedding Python's `str.split(sep)`.
* A small labelled transition system (`LockConfig`, `LockStep`) embeds the
  serialization of concurrent `IKADevice.query` and `IKADevice.command`
  calls through `asyncio.Lock` (`ika/driver.py`, lines 33-45).

Python string primitives used by the code (`str.strip`, substring `in`,
indexing, slicing, `float()`) are embedded on `List Char`; `float()` is
embedded over decimal literals (optional sign, digits, at most one dot),
the only shapes the protocol produces, with exact rational values standing
in for IEEE doubles (every value appearing in the claims is exactly
representable).
-/

/-- The characters stripped by Python's no-argument `str.strip()`
(ASCII whitespace, as produced by this protocol). -/
def isPySpace (c : Char) : Bool :=
  c == ' ' || c == '\t' || c == '\n' || c == '\r' || c == '\x0b' || c == '\x0c'

/-- Strip characters satisfying `p` from both ends of a list,
as Python's `str.strip` family does. -/
def pyStripGen (p : Char → Bool) (l : List Char) : List Char :=
  ((l.dropWhile p).reverse.dropWhile p).reverse

/-- Python `s.strip()`: remove surrounding whitespace. -/
def pyStrip (s : String) : String :=
  ⟨pyStripGen isPySpace s.data⟩

/-- Python `s.strip(chars)`: remove, from BOTH ends of `s`, every character
occurring anywhere in `chars` (a character-set strip, not a prefix strip). -/
def pyStripChars (s chars : String) : String :=
  ⟨pyStripGen (fun c => chars.data.contains c) s.data⟩

/-- Does the first list occur at the head of the second list? -/
def listStarts : List Char → List Char → Bool
  | [], _ => true
  | _ :: _, [] => false
  | a :: l, b :: m => a == b && listStarts l m

/-- Does the first list occur contiguously anywhere inside the second? -/
def listHasSub (n : List Char) : List Char → Bool
  | [] => listStarts n []
  | c :: t => listStarts n (c :: t) || listHasSub n t

/-- Python's substring test `needle in haystack`. -/
def pyIn (needle haystack : String) : Bool :=
  listHasSub needle.data haystack.data

/-- Python `s[-1]` for nonempty `s` (the embedding only consults this under
a nonemptiness guard mirroring the `IndexError` behaviour). -/
def lastChar (s : String) : Char :=
  s.data.getLastD '?'

/-- Python `s[0]` for nonempty `s`. -/
def firstChar (s : String) : Char :=
  s.data.headD '?'

/-- Python `s[0:2]`. -/
def pyTakeTwo (s : String) : String :=
  ⟨s.data.take 2⟩

/-- Python `s[:-2]`. -/
def pyDropTwo (s : String) : String :=
  ⟨s.data.take (s.data.length - 2)⟩

/-- Numeric value of a digit string (most significant first). -/
def digitsVal (l : List Char) : ℕ :=
  l.foldl (fun a c => 10 * a + (c.toNat - 48)) 0

/-- An exact decimal number `mantissa / 10 ^ places`, the value of a parsed
Python float literal (every value this protocol produces is an exact
decimal, so no IEEE rounding is involved). -/
structure Dec where
  mantissa : ℤ
  places : ℕ
deriving DecidableEq

/-- The rational value denoted by a `Dec`. -/
def decVal (d : Dec) : ℚ :=
  (d.mantissa : ℚ) / (10 : ℚ) ^ d.places

/-- Unsigned part of `pyFloat`: digits with an optional single dot,
at least one digit overall. -/
def pyFloatCore (sgn : ℤ) (u : List Char) : Option Dec :=
  let ip := u.takeWhile Char.isDigit
  match u.dropWhile Char.isDigit with
  | [] => if ip.isEmpty then none else some ⟨sgn * (digitsVal ip : ℤ), 0⟩
  | '.' :: fr =>
    if fr.all Char.isDigit && (!ip.isEmpty || !fr.isEmpty) then
      some ⟨sgn * ((digitsVal ip : ℤ) * (10 : ℤ) ^ fr.length + (digitsVal fr : ℤ)), fr.length⟩
    else none
  | _ => none

/-- Python's `float()` on the decimal literals this protocol produces:
surrounding whitespace, an optional sign, digits with at most one decimal
dot and at least one digit.  `none` means `float()` raises `ValueError`. -/
def pyFloat (s : String) : Option Dec :=
  match pyStripGen isPySpace s.data with
  | '+' :: r => pyFloatCore 1 r
  | '-' :: r => pyFloatCore (-1) r
  | r => pyFloatCore 1 r

/-- A value returned by `Client._write_and_read`. -/
inductive PyValue
  | none
  | str (s : String)
  | num (d : Dec)
  | bool (b : Bool)
deriving DecidableEq

/-- An exception raised out of `Client._write_and_read`:
`ConnectionError` (the Eurostar misconfiguration sentinel),
`NotImplementedError` (`STATUS_2`), `ValueError` (from `float()`), and
`IndexError` (`[-1]` on an empty string). -/
inductive PyError
  | connectionError
  | notImplementedError
  | valueError
  | indexError
deriving DecidableEq

/-- Outcome of the decode chain: a returned value or a raised exception. -/
inductive DecodeResult
  | ret (v : PyValue)
  | raise (e : PyError)
deriving DecidableEq

/-- Decode outcome together with whether `Client._clear` (the bounded
best-effort stream drain) was invoked on the way. -/
structure DecodeOut where
  result : DecodeResult
  drained : Bool
deriving DecidableEq

/-- The identity/name/version/type test of `Client._write_and_read`:
`'IN_VERSION' in command or 'IN_NAME' in command or 'TYPE' in command`. -/
def identityCmd (command : String) : Bool :=
  pyIn "IN_VERSION" command || pyIn "IN_NAME" command || pyIn "TYPE" command

/-- The decode chain of `Client._write_and_read` (`ika/util.py` lines
52-74), applied to the command and the already-whitespace-stripped
response line (both `TcpClient._readline` and `SerialClient._readline`
strip the line before returning it). -/
def decodeResponse (command response : String) : DecodeOut :=
  if identityCmd command then
    ⟨.ret (.str response), false⟩
  else if pyIn "IN_PV_4" response then
    ⟨.raise .connectionError, false⟩
  else if pyIn command response then
    ⟨.ret (.str (pyStrip (pyStripChars response command))), false⟩
  else if command.data.isEmpty || response.data.isEmpty then
    ⟨.raise .indexError, false⟩
  else if lastChar command ≠ lastChar response then
    ⟨.ret .none, true⟩
  else if pyIn "STATUS_2" command then
    ⟨.raise .notImplementedError, false⟩
  else if pyIn "STATUS_4" command then
    ⟨.ret (.bool (firstChar response == '1')), false⟩
  else if pyIn "START_4" response || pyIn "STOP_4" response then
    ⟨.ret (.bool true), false⟩
  else if pyIn "STATUS" command then
    ⟨.ret (.bool (pyTakeTwo response == "11")), false⟩
  else
    match pyFloat (pyDropTwo response) with
    | some q => ⟨.ret (.num q), false⟩
    | Option.none => ⟨.raise .valueError, false⟩

/-- The mutable transport state of `Client` / `TcpClient` that the claims
are about: `self.open` (`isOpen` here, since `open` is a Lean keyword),
`self.timeouts` and `self.reconnecting`.  The reader/writer pair held in
`self.connection` is external I/O state and is not modelled. -/
structure ClientState where
  isOpen : Bool
  timeouts : ℕ
  reconnecting : Bool
deriving DecidableEq

/-- `self.max_timeouts`, fixed at 10 in `Client.__init__`. -/
def maxTimeouts : ℕ := 10

/-- Outcome of the `asyncio.open_connection` attempt inside
`TcpClient._connect`: it either completes within the 0.75 s bound, or
times out / fails with an `OSError`. -/
inductive ConnectOutcome
  | ok
  | failure
deriving DecidableEq

/-- Outcome of one write-then-readline exchange inside
`TcpClient._handle_communication`: the raw line read; or an
`asyncio.TimeoutError` / `TypeError` / `OSError` caught there; or an
`asyncio.IncompleteReadError`, which that handler does not catch and which
propagates to `_write_and_read`. -/
inductive CommOutcome
  | success (line : String)
  | failure
  | incompleteRead
deriving DecidableEq

/-- `TcpClient._handle_connection` (`ika/util.py` lines 176-186): a no-op
when open; otherwise attempt `_connect` — on success mark open and clear
the reconnecting flag, on timeout/`OSError` only set the reconnecting
flag (used to suppress duplicate log noise). -/
def handleConnection (s : ClientState) (o : ConnectOutcome) : ClientState :=
  if s.isOpen then s
  else
    match o with
    | .ok => { s with isOpen := true, reconnecting := false }
    | .failure => { s with reconnecting := true }

/-- `TcpClient._handle_communication` (`ika/util.py` lines 188-202): on a
successful exchange reset `self.timeouts` to 0 and return the stripped
line (`TcpClient._readline` strips it); on a caught timeout/`TypeError`/
`OSError` increment `self.timeouts`, close the connection when the count
reaches `self.max_timeouts`, and return `None`; an `IncompleteReadError`
leaves the state untouched (the counter is not incremented) and is caught
further out in `_write_and_read`, which returns `None`. -/
def handleCommunication : ClientState → CommOutcome → ClientState × Option String
  | s, .success line => ({ s with timeouts := 0 }, some (pyStrip line))
  | s, .failure =>
    let t := s.timeouts + 1
    (if t = maxTimeouts then { s with timeouts := t, isOpen := false }
     else { s with timeouts := t }, none)
  | s, .incompleteRead => (s, none)

/-- What one `Client._write_and_read` call produced: the transport state
after the call, the decoded result, whether `_clear` drained the stream,
and whether the call reached `_handle_communication` at all (i.e. whether
anything was written to the wire). -/
structure WrOut where
  state : ClientState
  result : DecodeResult
  drained : Bool
  wrote : Bool
deriving DecidableEq

/-- `Client._write_and_read` (`ika/util.py` lines 44-79) over the `TcpClient`
transport: ensure the connection, and if it is open run one exchange and
decode its response; if the connection attempt failed, or the exchange
produced no line, return `None`. -/
def writeAndRead (s : ClientState) (command : String) (co : ConnectOutcome)
    (xo : CommOutcome) : WrOut :=
  let s1 := handleConnection s co
  if s1.isOpen then
    match handleCommunication s1 xo with
    | (s2, some response) =>
      let d := decodeResponse command response
      ⟨s2, d.result, d.drained, true⟩
    | (s2, none) => ⟨s2, .ret .none, false, true⟩
  else ⟨s1, .ret .none, false, false⟩

/-- Python `s.split(sep)` for a single-character separator: split at every
occurrence of `sep`; the empty string yields `[[]]`. -/
def pySplit (sep : Char) : List Char → List (List Char)
  | [] => [[]]
  | c :: t =>
    if c = sep then [] :: pySplit sep t
    else
      match pySplit sep t with
      | [] => [[c]]
      | h :: r => (c :: h) :: r

/-- Result of `TcpClient.__init__`: either the stored `(self.address,
self.port)` pair, or the `ValueError` message it raises. -/
inductive TcpInitResult where
  | ok (host port : String)
  | error (msg : String)
deriving DecidableEq

/-- `TcpClient.__init__` (`ika/util.py` lines 124-130): unpack
`address.split(':')` into `self.address, self.port`; any other shape of
the split raises `ValueError('address must be hostname:port')`.  Both
pieces are stored as strings; no numeric conversion or validation of the
port is performed. -/
def tcpInit (address : String) : TcpInitResult :=
  match pySplit ':' address.data with
  | [h, p] => .ok ⟨h⟩ ⟨p⟩
  | _ => .error "address must be hostname:port"

/-- The payload the spec's words ascribe to the command-echo rule:
"strip the command prefix and trailing whitespace and return the
remainder" (a true prefix removal, for comparison with the code's
character-set `str.strip(command)`). -/
def specStripEcho (command response : String) : String :=
  pyStrip ⟨response.data.drop command.data.length⟩

/-- One atomic step of a concurrent `IKADevice.query` or
`IKADevice.command` call (`ika/driver.py` lines 33-45): acquire
`self.lock`, write the command to the wire (`Client._write`), read the
response line (`_readline`, queries only), release the lock when the
`async with` block exits. -/
inductive LockInstr where
  | acquire
  | write
  | read
  | release
deriving DecidableEq

/-- A wire event observed while a query runs: task `i` wrote its command,
or task `i` read its response. -/
inductive LockEvent where
  | write (i : ℕ)
  | read (i : ℕ)
deriving DecidableEq

/-- The instruction sequence of one `IKADevice.query` call. -/
def queryProg : List LockInstr :=
  [.acquire, .write, .read, .release]

/-- The instruction sequence of one `IKADevice.command` call
(`ika/driver.py` lines 40-45): it writes under the lock but does not wait
for a response line. -/
def commandProg : List LockInstr :=
  [.acquire, .write, .release]

/-- A configuration of the event loop: who holds `self.lock`, the
remaining instructions of each task (indexed by position), and the wire
events so far, oldest first. -/
structure LockConfig where
  lock : Option ℕ
  tasks : List (List LockInstr)
  trace : List LockEvent
deriving DecidableEq

/-- Interleaving semantics of the event loop: any task may run its next
instruction, except that `acquire` only proceeds when the lock is free
(`asyncio.Lock` blocks other acquirers until released).  This is more
permissive than cooperative asyncio scheduling — writes and reads of
distinct tasks may interleave arbitrarily unless the lock discipline of
the programs forbids it — so anything proved over all runs of this system
holds a fortiori of the real event loop. -/
inductive LockStep : LockConfig → LockConfig → Prop
  | acquire (c : LockConfig) (i : ℕ) (rest : List LockInstr)
      (ht : c.tasks.get? i = some (.acquire :: rest)) (hl : c.lock = none) :
      LockStep c ⟨some i, c.tasks.set i rest, c.trace⟩
  | write (c : LockConfig) (i : ℕ) (rest : List LockInstr)
      (ht : c.tasks.get? i = some (.write :: rest)) :
      LockStep c ⟨c.lock, c.tasks.set i rest, c.trace ++ [.write i]⟩
  | read (c : LockConfig) (i : ℕ) (rest : List LockInstr)
      (ht : c.tasks.get? i = some (.read :: rest)) :
      LockStep c ⟨c.lock, c.tasks.set i rest, c.trace ++ [.read i]⟩
  | release (c : LockConfig) (i : ℕ) (rest : List LockInstr)
      (ht : c.tasks.get? i = some (.release :: rest)) :
      LockStep c ⟨none, c.tasks.set i rest, c.trace⟩

/-- An initial configuration: lock free, no events yet, and every task is
a whole `query` call, a whole `command` call, or already done. -/
def LockInit (c : LockConfig) : Prop :=
  c.lock = none ∧ c.trace = [] ∧
  ∀ p ∈ c.tasks, p = queryProg ∨ p = commandProg ∨ p = []

/-- Configurations reachable from some initial configuration. -/
inductive LockReach : LockConfig → Prop
  | init (c : LockConfig) (h : LockInit c) : LockReach c
  | step (c c' : LockConfig) (h : LockReach c) (hs : LockStep c c') : LockReach c'

/-- Traces that are a concatenation of completed wire blocks, one per
call: `[write i, read i]` for a `query`, `[write i]` for a `command` (or
for a query whose read has not happened yet — on the wire the two look
alike).  Each task runs at most one call, so a block's writer is fresh:
it has not written earlier in the trace. -/
inductive SerTrace : List LockEvent → Prop
  | nil : SerTrace []
  | blockQ (tr : List LockEvent) (i : ℕ) (h : SerTrace tr)
      (hf : LockEvent.write i ∉ tr) : SerTrace (tr ++ [.write i, .read i])
  | blockC (tr : List LockEvent) (i : ℕ) (h : SerTrace tr)
      (hf : LockEvent.write i ∉ tr) : SerTrace (tr ++ [.write i])

/-- The non-interleaving property of the claim: nothing at all — no other
call's write or read — stands between a call's write and its response
read, so a second call's wire traffic begins only after the first call's
write and read have both completed, and a `command` call's write never
lands inside a `query` call's write/read exchange. -/
def wireSerialized (tr : List LockEvent) : Prop :=
  ∀ i l1 l2 l3, tr = l1 ++ .write i :: l2 ++ .read i :: l3 → l2 = []

/-- Appending a single element is injective in both parts. -/
lemma snocInjAux {α : Type} {l₁ l₂ : List α} {a b : α}
    (h : l₁ ++ [a] = l₂ ++ [b]) : l₁ = l₂ ∧ a = b := by
  have h1 : a :: l₁.reverse = b :: l₂.reverse := by
    simpa using congrArg List.reverse h
  injection h1 with h2 h3
  exact ⟨List.reverse_injective h3, h2⟩

/-- In a serialized trace, nothing stands between a write and the
matching read: the freshness condition on block writers pins the read's
block to the unique write with the same index. -/
lemma serTrace_noSplit {tr : List LockEvent} (h : SerTrace tr) :
    wireSerialized tr := by
  induction h with
  | nil =>
    intro i l1 l2 l3 heq
    exact absurd heq (by simp)
  | blockQ tr t h hf IH =>
    intro i l1 l2 l3 heq
    rcases List.eq_nil_or_concat l3 with rfl | ⟨l3a, x, rfl⟩
    · have h2 : (tr ++ [LockEvent.write t]) ++ [LockEvent.read t] =
          (l1 ++ LockEvent.write i :: l2) ++ [LockEvent.read i] := by
        simpa using heq
      obtain ⟨h3, h4⟩ := snocInjAux h2
      injection h4 with h5
      subst h5
      rcases List.eq_nil_or_concat l2 with rfl | ⟨l2a, y, rfl⟩
      · rfl
      · have h6 : (l1 ++ LockEvent.write t :: l2a) ++ [y] =
            tr ++ [LockEvent.write t] := by
          simpa using h3.symm
        obtain ⟨h7, rfl⟩ := snocInjAux h6
        have h8 : LockEvent.write t ∈ tr := by
          rw [← h7]; simp
        exact absurd h8 hf
    · have h2 : (tr ++ [LockEvent.write t]) ++ [LockEvent.read t] =
          (l1 ++ LockEvent.write i :: l2 ++ LockEvent.read i :: l3a) ++ [x] := by
        simpa using heq
      obtain ⟨h3, rfl⟩ := snocInjAux h2
      rcases List.eq_nil_or_concat l3a with rfl | ⟨l3b, y, rfl⟩
      · have h4 : (l1 ++ LockEvent.write i :: l2) ++ [LockEvent.read i] =
            tr ++ [LockEvent.write t] := by
          simpa using h3.symm
        obtain ⟨-, h5⟩ := snocInjAux h4
        exact absurd h5 (by simp)
      · have h4 : (l1 ++ LockEvent.write i :: l2 ++ LockEvent.read i :: l3b) ++ [y] =
            tr ++ [LockEvent.write t] := by
          simpa using h3.symm
        obtain ⟨h5, rfl⟩ := snocInjAux h4
        exact IH i l1 l2 l3b h5.symm
  | blockC tr t h hf IH =>
    intro i l1 l2 l3 heq
    rcases List.eq_nil_or_concat l3 with rfl | ⟨l3a, x, rfl⟩
    · have h2 : (l1 ++ LockEvent.write i :: l2) ++ [LockEvent.read i] =
          tr ++ [LockEvent.write t] := by
        simpa using heq.symm
      obtain ⟨-, h3⟩ := snocInjAux h2
      exact absurd h3 (by simp)
    · have h2 : (l1 ++ LockEvent.write i :: l2 ++ LockEvent.read i :: l3a) ++ [x] =
          tr ++ [LockEvent.write t] := by
        simpa using heq.symm
      obtain ⟨h3, rfl⟩ := snocInjAux h2
      exact IH i l1 l2 l3a h3.symm

/-- Reading back the updated index of `List.set`. -/
lemma getSetSelf {α : Type} :
    ∀ (l : List α) (i : ℕ) (a b : α), l.get? i = some b → (l.set i a).get? i = some a := by
  intro l
  induction l with
  | nil => intro i a b h; simp at h
  | cons c t IH =>
    intro i a b h
    cases i with
    | zero => rfl
    | succ i => simpa using IH i a b (by simpa using h)

/-- Reading back an untouched index of `List.set`. -/
lemma getSetOther {α : Type} :
    ∀ (l : List α) (i j : ℕ) (a : α), i ≠ j → (l.set i a).get? j = l.get? j := by
  intro l
  induction l with
  | nil => intro i j a h; simp
  | cons c t IH =>
    intro i j a h
    cases i with
    | zero =>
      cases j with
      | zero => exact absurd rfl h
      | succ j => rfl
    | succ i =>
      cases j with
      | zero => rfl
      | succ j => simpa using IH i j a (fun e => h (by rw [e]))

/-- A task not holding the lock: a whole pending `query`, a whole pending
`command`, or a finished call. -/
def idleTask (p : List LockInstr) : Prop :=
  p = queryProg ∨ p = commandProg ∨ p = []

/-- An idle task's program never begins with `write`. -/
lemma idleTask_not_write {rest : List LockInstr}
    (h : idleTask (LockInstr.write :: rest)) : False := by
  unfold idleTask queryProg commandProg at h
  rcases h with h1 | h1 | h1 <;> simp at h1

/-- An idle task's program never begins with `read`. -/
lemma idleTask_not_read {rest : List LockInstr}
    (h : idleTask (LockInstr.read :: rest)) : False := by
  unfold idleTask queryProg commandProg at h
  rcases h with h1 | h1 | h1 <;> simp at h1

/-- An idle task's program never begins with `release`. -/
lemma idleTask_not_release {rest : List LockInstr}
    (h : idleTask (LockInstr.release :: rest)) : False := by
  unfold idleTask queryProg commandProg at h
  rcases h with h1 | h1 | h1 <;> simp at h1

/-- An idle task beginning with `acquire` is a whole query or command. -/
lemma idleTask_acquire {rest : List LockInstr}
    (h : idleTask (LockInstr.acquire :: rest)) :
    rest = [LockInstr.write, LockInstr.read, LockInstr.release] ∨
    rest = [LockInstr.write, LockInstr.release] := by
  unfold idleTask queryProg commandProg at h
  rcases h with h1 | h1 | h1
  · exact Or.inl (by simpa using h1)
  · exact Or.inr (by simpa using h1)
  · exact absurd h1 (by simp)

/-- The inductive invariant of the lock system.  A task whose remaining
program still contains its `write` has not written yet (freshness).  When
the lock is free every task is idle and the trace is serialized into
completed blocks; when task `o` holds the lock, every other task is idle
and `o`'s remaining program says exactly how far its block has got into
the trace. -/
def LockInv (c : LockConfig) : Prop :=
  (∀ i p, c.tasks.get? i = some p → LockInstr.write ∈ p →
    LockEvent.write i ∉ c.trace) ∧
  match c.lock with
  | none =>
    (∀ i p, c.tasks.get? i = some p → idleTask p) ∧ SerTrace c.trace
  | some o =>
    (∀ i p, i ≠ o → c.tasks.get? i = some p → idleTask p) ∧
    ((c.tasks.get? o = some [.write, .read, .release] ∧ SerTrace c.trace) ∨
     (c.tasks.get? o = some [.write, .release] ∧ SerTrace c.trace) ∨
     (c.tasks.get? o = some [.read, .release] ∧
       ∃ tr, SerTrace tr ∧ LockEvent.write o ∉ tr ∧
         c.trace = tr ++ [.write o]) ∨
     (c.tasks.get? o = some [.release] ∧
       ((∃ tr, SerTrace tr ∧ LockEvent.write o ∉ tr ∧
          c.trace = tr ++ [.write o, .read o]) ∨
        (∃ tr, SerTrace tr ∧ LockEvent.write o ∉ tr ∧
          c.trace = tr ++ [.write o]))))

/-- Initial configurations satisfy the invariant. -/
lemma lockInv_init {c : LockConfig} (h : LockInit c) : LockInv c := by
  obtain ⟨hl, htr, hts⟩ := h
  unfold LockInv
  rw [hl, htr]
  exact ⟨fun i p hp hw => by simp,
    fun i p hp => hts p (List.get?_mem hp), SerTrace.nil⟩

/-- Every step preserves the invariant. -/
lemma lockInv_step {c c' : LockConfig} (hinv : LockInv c) (hs : LockStep c c') :
    LockInv c' := by
  cases hs with
  | acquire i rest ht hl =>
    unfold LockInv at hinv ⊢
    obtain ⟨hfr, hmain⟩ := hinv
    rw [hl] at hmain
    obtain ⟨hall, htr⟩ := hmain
    have hrest := idleTask_acquire (hall i _ ht)
    constructor
    · intro j p hp hw
      by_cases hji : j = i
      · subst hji
        rw [getSetSelf c.tasks j rest _ ht] at hp
        injection hp with hp1
        subst hp1
        exact hfr j _ ht (List.mem_cons_of_mem _ hw)
      · rw [getSetOther c.tasks i j rest (fun e => hji e.symm)] at hp
        exact hfr j p hp hw
    · refine ⟨fun j p hj hp => hall j p ?_, ?_⟩
      · rw [← getSetOther c.tasks i j rest (fun e => hj e.symm)]; exact hp
      · rcases hrest with h1 | h1
        · exact Or.inl ⟨by rw [getSetSelf c.tasks i rest _ ht, h1], htr⟩
        · exact Or.inr (Or.inl ⟨by rw [getSetSelf c.tasks i rest _ ht, h1], htr⟩)
  | write i rest ht =>
    unfold LockInv at hinv ⊢
    obtain ⟨hfr, hmain⟩ := hinv
    have hwi : LockEvent.write i ∉ c.trace := hfr i _ ht (List.mem_cons_self _ _)
    cases hcl : c.lock with
    | none =>
      rw [hcl] at hmain
      exact absurd (hmain.1 i _ ht) idleTask_not_write
    | some o =>
      rw [hcl] at hmain
      obtain ⟨hoth, hown⟩ := hmain
      by_cases hio : i = o
      · subst hio
        rcases hown with ⟨hp, htr⟩ | ⟨hp, htr⟩ | ⟨hp, -⟩ | ⟨hp, -⟩
        · rw [ht] at hp
          injection hp with hp1
          have hp2 : rest = [LockInstr.read, LockInstr.release] := by simpa using hp1
          constructor
          · intro j p hp' hw hmem
            rcases List.mem_append.mp hmem with hm | hm
            · by_cases hji : j = i
              · subst hji
                exact hwi hm
              · rw [getSetOther c.tasks i j rest (fun e => hji e.symm)] at hp'
                exact hfr j p hp' hw hm
            · have hji : j = i := by simpa using hm
              subst hji
              rw [getSetSelf c.tasks j rest _ ht] at hp'
              injection hp' with hp3
              subst hp3
              rw [hp2] at hw
              simp at hw
          · refine ⟨fun j p hj hp' => hoth j p hj ?_, ?_⟩
            · rw [← getSetOther c.tasks i j rest (fun e => hj e.symm)]; exact hp'
            · refine Or.inr (Or.inr (Or.inl ⟨?_, c.trace, htr, hwi, rfl⟩))
              rw [getSetSelf c.tasks i rest _ ht, hp2]
        · rw [ht] at hp
          injection hp with hp1
          have hp2 : rest = [LockInstr.release] := by simpa using hp1
          constructor
          · intro j p hp' hw hmem
            rcases List.mem_append.mp hmem with hm | hm
            · by_cases hji : j = i
              · subst hji
                exact hwi hm
              · rw [getSetOther c.tasks i j rest (fun e => hji e.symm)] at hp'
                exact hfr j p hp' hw hm
            · have hji : j = i := by simpa using hm
              subst hji
              rw [getSetSelf c.tasks j rest _ ht] at hp'
              injection hp' with hp3
              subst hp3
              rw [hp2] at hw
              simp at hw
          · refine ⟨fun j p hj hp' => hoth j p hj ?_, ?_⟩
            · rw [← getSetOther c.tasks i j rest (fun e => hj e.symm)]; exact hp'
            · refine Or.inr (Or.inr (Or.inr ⟨?_, Or.inr ⟨c.trace, htr, hwi, rfl⟩⟩))
              rw [getSetSelf c.tasks i rest _ ht, hp2]
        · rw [ht] at hp; injection hp with hp1; exact absurd hp1 (by simp)
        · rw [ht] at hp; injection hp with hp1; exact absurd hp1 (by simp)
      · exact absurd (hoth i _ hio ht) idleTask_not_write
  | read i rest ht =>
    unfold LockInv at hinv ⊢
    obtain ⟨hfr, hmain⟩ := hinv
    cases hcl : c.lock with
    | none =>
      rw [hcl] at hmain
      exact absurd (hmain.1 i _ ht) idleTask_not_read
    | some o =>
      rw [hcl] at hmain
      obtain ⟨hoth, hown⟩ := hmain
      by_cases hio : i = o
      · subst hio
        rcases hown with ⟨hp, -⟩ | ⟨hp, -⟩ | ⟨hp, tr, htr, hwf, htrace⟩ | ⟨hp, -⟩
        · rw [ht] at hp; injection hp with hp1; exact absurd hp1 (by simp)
        · rw [ht] at hp; injection hp with hp1; exact absurd hp1 (by simp)
        · rw [ht] at hp
          injection hp with hp1
          have hp2 : rest = [LockInstr.release] := by simpa using hp1
          constructor
          · intro j p hp' hw hmem
            rcases List.mem_append.mp hmem with hm | hm
            · by_cases hji : j = i
              · subst hji
                rw [getSetSelf c.tasks j rest _ ht] at hp'
                injection hp' with hp3
                subst hp3
                rw [hp2] at hw
                simp at hw
              · rw [getSetOther c.tasks i j rest (fun e => hji e.symm)] at hp'
                exact hfr j p hp' hw hm
            · simp at hm
          · refine ⟨fun j p hj hp' => hoth j p hj ?_, ?_⟩
            · rw [← getSetOther c.tasks i j rest (fun e => hj e.symm)]; exact hp'
            · refine Or.inr (Or.inr (Or.inr ⟨?_, Or.inl ⟨tr, htr, hwf, ?_⟩⟩))
              · rw [getSetSelf c.tasks i rest _ ht, hp2]
              · rw [htrace]; simp
        · rw [ht] at hp; injection hp with hp1; exact absurd hp1 (by simp)
      · exact absurd (hoth i _ hio ht) idleTask_not_read
  | release i rest ht =>
    unfold LockInv at hinv ⊢
    obtain ⟨hfr, hmain⟩ := hinv
    cases hcl : c.lock with
    | none =>
      rw [hcl] at hmain
      exact absurd (hmain.1 i _ ht) idleTask_not_release
    | some o =>
      rw [hcl] at hmain
      obtain ⟨hoth, hown⟩ := hmain
      by_cases hio : i = o
      · subst hio
        rcases hown with ⟨hp, -⟩ | ⟨hp, -⟩ | ⟨hp, -⟩ | ⟨hp, halt⟩
        · rw [ht] at hp; injection hp with hp1; exact absurd hp1 (by simp)
        · rw [ht] at hp; injection hp with hp1; exact absurd hp1 (by simp)
        · rw [ht] at hp; injection hp with hp1; exact absurd hp1 (by simp)
        · rw [ht] at hp
          injection hp with hp1
          have hp2 : rest = [] := by simpa using hp1
          constructor
          · intro j p hp' hw hmem
            by_cases hji : j = i
            · subst hji
              rw [getSetSelf c.tasks j rest _ ht] at hp'
              injection hp' with hp3
              subst hp3
              rw [hp2] at hw
              simp at hw
            · rw [getSetOther c.tasks i j rest (fun e => hji e.symm)] at hp'
              exact hfr j p hp' hw hmem
          · constructor
            · intro j p hq
              by_cases hji : j = i
              · subst hji
                rw [getSetSelf c.tasks j rest _ ht] at hq
                injection hq with hq1
                rw [← hq1, hp2]
                exact Or.inr (Or.inr rfl)
              · rw [getSetOther c.tasks i j rest (fun e => hji e.symm)] at hq
                exact hoth j _ hji hq
            · rcases halt with ⟨tr, htr, hwf, htrace⟩ | ⟨tr, htr, hwf, htrace⟩
              · rw [htrace]; exact SerTrace.blockQ tr i htr hwf
              · rw [htrace]; exact SerTrace.blockC tr i htr hwf
      · exact absurd (hoth i _ hio ht) idleTask_not_release

/-- Every reachable configuration satisfies the invariant. -/
lemma lockInv_reach {c : LockConfig} (h : LockReach c) : LockInv c := by
  induction h with
  | init c h => exact lockInv_init h
  | step c c' h hs IH => exact lockInv_step IH hs

/-- The invariant makes the whole trace serialized: a pending write or a
pending write/read pair is itself a completed command- or query-shaped
block. -/
lemma lockInv_serTrace {c : LockConfig} (h : LockInv c) : SerTrace c.trace := by
  unfold LockInv at h
  obtain ⟨-, hmain⟩ := h
  cases hcl : c.lock with
  | none =>
    rw [hcl] at hmain
    exact hmain.2
  | some o =>
    rw [hcl] at hmain
    rcases hmain.2 with ⟨-, htr⟩ | ⟨-, htr⟩ | ⟨-, tr, htr, hwf, htrace⟩ | ⟨-, halt⟩
    · exact htr
    · exact htr
    · rw [htrace]; exact SerTrace.blockC tr o htr hwf
    · rcases halt with ⟨tr, htr, hwf, htrace⟩ | ⟨tr, htr, hwf, htrace⟩
      · rw [htrace]; exact SerTrace.blockQ tr o htr hwf
      · rw [htrace]; exact SerTrace.blockC tr o htr hwf

/-- `pySplit` always yields at least one piece. -/
lemma pySplit_ne_nil (sep : Char) (l : List Char) : pySplit sep l ≠ [] := by
  cases l with
  | nil => simp [pySplit]
  | cons c t =>
    unfold pySplit
    by_cases h : c = sep
    · simp [h]
    · rw [if_neg h]
      cases hq : pySplit sep t <;> simp [hq]

/-- Splitting a separator-free list yields that single piece. -/
lemma pySplit_no_sep (sep : Char) :
    ∀ l : List Char, sep ∉ l → pySplit sep l = [l] := by
  intro l
  induction l with
  | nil => intro h; rfl
  | cons c t IH =>
    intro h
    have hc : ¬(c = sep) := fun e => h (e ▸ List.mem_cons_self c t)
    have ht : sep ∉ t := fun m => h (List.mem_cons_of_mem c m)
    unfold pySplit
    rw [if_neg hc, IH ht]

/-- Splitting off the first separator occurrence. -/
lemma pySplit_append (sep : Char) :
    ∀ l m : List Char, sep ∉ l →
      pySplit sep (l ++ sep :: m) = l :: pySplit sep m := by
  intro l
  induction l with
  | nil =>
    intro m h
    show pySplit sep (sep :: m) = [] :: pySplit sep m
    rw [pySplit, if_pos rfl]
  | cons c t IH =>
    intro m h
    have hc : ¬(c = sep) := fun e => h (e ▸ List.mem_cons_self c t)
    have ht : sep ∉ t := fun m2 => h (List.mem_cons_of_mem c m2)
    show pySplit sep (c :: (t ++ sep :: m)) = (c :: t) :: pySplit sep m
    rw [pySplit, if_neg hc, IH m ht]

/-- The number of pieces is one more than the number of separators. -/
lemma pySplit_length (sep : Char) :
    ∀ l : List Char, (pySplit sep l).length = l.count sep + 1 := by
  intro l
  induction l with
  | nil => rfl
  | cons c t IH =>
    unfold pySplit
    by_cases h : c = sep
    · rw [if_pos h]
      subst h
      simp [List.count_cons, IH]
    · rw [if_neg h]
      cases hq : pySplit sep t with
      | nil => exact absurd hq (pySplit_ne_nil sep t)
      | cons a r =>
        have h2 := IH
        rw [hq] at h2
        have hcs : ¬(sep = c) := fun e => h e.symm
        simp only [List.length_cons] at h2 ⊢
        rw [List.count_cons]
        simp [h, hcs]
        omega

/-- Any split with a piece count other than two raises the `ValueError`. -/
lemma tcpInit_error_of_len {a : String}
    (h : (pySplit ':' a.data).length ≠ 2) :
    tcpInit a = .error "address must be hostname:port" := by
  unfold tcpInit
  cases hq : pySplit ':' a.data with
  | nil => rfl
  | cons x r =>
    cases r with
    | nil => rfl
    | cons y r2 =>
      cases r2 with
      | nil => rw [hq] at h; simp at h
      | cons z r3 => rfl

/-- C1 counterexample: on the spec's own example — response line
`"22.50 4\r\n"` to an `"IN_PV_3"` query — the code does NOT return the
float 22.5: the last characters `'3'` and `'4'` differ, so the
mismatch rule fires first and the call drains the stream and returns
`None`. -/
theorem c1_spec_example_refuted :
    decodeResponse "IN_PV_3" (pyStrip "22.50 4\r\n") =
      ⟨.ret .none, true⟩ ∧
    (decodeResponse "IN_PV_3" (pyStrip "22.50 4\r\n")).result ≠
      .ret (.num ⟨2250, 2⟩) := by
  exact ⟨by decide, by decide⟩

/-- C1 (amended): whenever no earlier branch of the decode chain fires
(not an identity command, no Eurostar sentinel, command not a substring of
the response, both nonempty, last characters EQUAL, no `STATUS_2`,
`STATUS_4` or `STATUS` in the command, no `START_4`/`STOP_4` echo in the
response), `query` strips the trailing two characters of the stripped
response line and parses the remainder with `float()`: a parseable
remainder is returned as that number, an unparseable one raises
`ValueError`, which propagates.  The spec's example line must read
`"22.50 3\r\n"` (echoing the command's final character) to yield 22.5. -/
theorem c1_default_float_parse (command response : String)
    (hid : identityCmd command = false)
    (hsent : pyIn "IN_PV_4" response = false)
    (hecho : pyIn command response = false)
    (hce : command.data.isEmpty = false)
    (hre : response.data.isEmpty = false)
    (hlast : lastChar command = lastChar response)
    (hs2 : pyIn "STATUS_2" command = false)
    (hs4 : pyIn "STATUS_4" command = false)
    (hmot1 : pyIn "START_4" response = false)
    (hmot2 : pyIn "STOP_4" response = false)
    (hst : pyIn "STATUS" command = false) :
    decodeResponse command response =
      match pyFloat (pyDropTwo response) with
      | some d => ⟨.ret (.num d), false⟩
      | none => ⟨.raise .valueError, false⟩ := by
  simp [decodeResponse, hid, hsent, hecho, hce, hre, hlast, hs2, hs4, hmot1, hmot2, hst]

/-- C1 witness: the corrected example `"22.50 3 \r\n"` answering
`"IN_PV_3"` parses to the exact decimal 2250/10² = 22.5, and an
unparseable payload raises `ValueError`. -/
theorem c1_default_float_parse_witness :
    decodeResponse "IN_PV_3" (pyStrip "22.50 3 \r\n") =
      ⟨.ret (.num ⟨2250, 2⟩), false⟩ ∧
    decVal ⟨2250, 2⟩ = 45 / 2 ∧
    decodeResponse "IN_SP_8" "abc 8" = ⟨.raise .valueError, false⟩ := by
  refine ⟨?_, by norm_num [decVal], ?_⟩
  · have h := c1_default_float_parse "IN_PV_3" (pyStrip "22.50 3 \r\n")
      (by decide) (by decide) (by decide) (by decide) (by decide) (by decide)
      (by decide) (by decide) (by decide) (by decide) (by decide)
    rw [h]
    decide
  · have h := c1_default_float_parse "IN_SP_8" "abc 8"
      (by decide) (by decide) (by decide) (by decide) (by decide) (by decide)
      (by decide) (by decide) (by decide) (by decide) (by decide)
    rw [h]
    decide

/-- C2: when a line was read, the command is not an identity command, the
response carries no sentinel, the command is not a substring of the
response, and the final characters differ, `query` drains the stream
(`_clear`, a bounded best-effort read) and returns `None` without
raising. -/
theorem c2_mismatch_returns_none (command response : String)
    (hid : identityCmd command = false)
    (hsent : pyIn "IN_PV_4" response = false)
    (hecho : pyIn command response = false)
    (hce : command.data.isEmpty = false)
    (hre : response.data.isEmpty = false)
    (hlast : lastChar command ≠ lastChar response) :
    decodeResponse command response = ⟨.ret .none, true⟩ := by
  simp [decodeResponse, hid, hsent, hecho, hce, hre, hlast]

/-- C2 witness: a mismatched echo digit (`"IN_PV_3"` answered by
`"22.50 4"`) yields `None` with the stream drained. -/
theorem c2_mismatch_returns_none_witness :
    decodeResponse "IN_PV_3" "22.50 4" = ⟨.ret .none, true⟩ :=
  c2_mismatch_returns_none "IN_PV_3" "22.50 4"
    (by decide) (by decide) (by decide) (by decide) (by decide) (by decide)

/-- C3: the code evaluated at the failing inputs.  `response.strip(command)`
strips the command's CHARACTER SET from both ends rather than removing the
echoed command prefix, so the pressure readout `"IN_PV_66 986"` decodes to
`"98"` (the trailing `'6'` is eaten) and the setpoint echo
`"IN_SP_66 666"` decodes to `""`, while the spec's prefix-strip
(`specStripEcho`) yields the true payloads `"986"` and `"666"`. -/
theorem c3_echo_strip_eval :
    decodeResponse "IN_PV_66" "IN_PV_66 986" = ⟨.ret (.str "98"), false⟩ ∧
    specStripEcho "IN_PV_66" "IN_PV_66 986" = "986" ∧
    decodeResponse "IN_SP_66" "IN_SP_66 666" = ⟨.ret (.str ""), false⟩ ∧
    specStripEcho "IN_SP_66" "IN_SP_66 666" = "666" := by
  exact ⟨by decide, by decide, by decide, by decide⟩

/-- C4: for every non-identity command whose response line contains the
cross-wired sentinel `"IN_PV_4"`, `query` raises the configuration-fault
error (`ConnectionError` describing the Eurostar misconfiguration) rather
than returning an absent value or any other soft result. -/
theorem c4_sentinel_raises (command response : String)
    (hid : identityCmd command = false)
    (hsent : pyIn "IN_PV_4" response = true) :
    decodeResponse command response = ⟨.raise .connectionError, false⟩ := by
  simp [decodeResponse, hid, hsent]

/-- C4 witness: a hotplate temperature query answered with Eurostar
traffic raises the configuration fault. -/
theorem c4_sentinel_raises_witness :
    decodeResponse "IN_PV_1" "IN_PV_4 300" = ⟨.raise .connectionError, false⟩ :=
  c4_sentinel_raises "IN_PV_1" "IN_PV_4 300" (by decide) (by decide)

/-- C5 counterexample: `"STATUS_2"` contains `"STATUS"` and is not the
motor status `"STATUS_4"`, its response `"-90 2"` matches the command's
final character and triggers no earlier rule, yet the code raises
`NotImplementedError` instead of returning any boolean. -/
theorem c5_status2_counterexample :
    (decodeResponse "STATUS_2" "-90 2").result = .raise .notImplementedError ∧
    (decodeResponse "STATUS_2" "-90 2").result ≠ .ret (.bool true) ∧
    (decodeResponse "STATUS_2" "-90 2").result ≠ .ret (.bool false) ∧
    pyIn "STATUS" "STATUS_2" = true ∧
    pyIn "STATUS_4" "STATUS_2" = false ∧
    lastChar "STATUS_2" = lastChar "-90 2" := by
  exact ⟨by decide, by decide, by decide, by decide, by decide, by decide⟩

/-- C5 (amended): for a command containing `"STATUS"` but neither
`"STATUS_4"` nor `"STATUS_2"` (commands containing `"STATUS_2"` raise
`NotImplementedError` instead), when a line was read, no earlier branch
fires and the final characters match, `query` returns a boolean that is
true exactly when the first two characters of the response are `"11"`. -/
theorem c5_hotplate_status_bool (command response : String)
    (hid : identityCmd command = false)
    (hsent : pyIn "IN_PV_4" response = false)
    (hecho : pyIn command response = false)
    (hce : command.data.isEmpty = false)
    (hre : response.data.isEmpty = false)
    (hlast : lastChar command = lastChar response)
    (hs2 : pyIn "STATUS_2" command = false)
    (hs4 : pyIn "STATUS_4" command = false)
    (hmot1 : pyIn "START_4" response = false)
    (hmot2 : pyIn "STOP_4" response = false)
    (hst : pyIn "STATUS" command = true) :
    decodeResponse command response =
      ⟨.ret (.bool (pyTakeTwo response == "11")), false⟩ := by
  simp [decodeResponse, hid, hsent, hecho, hce, hre, hlast, hs2, hs4, hmot1, hmot2, hst]

/-- C5 witness: `"STATUS_1"` answered `"11 1"` reads back active,
answered `"12 1"` reads back inactive. -/
theorem c5_hotplate_status_bool_witness :
    decodeResponse "STATUS_1" "11 1" = ⟨.ret (.bool true), false⟩ ∧
    decodeResponse "STATUS_1" "12 1" = ⟨.ret (.bool false), false⟩ := by
  constructor
  · have h := c5_hotplate_status_bool "STATUS_1" "11 1"
      (by decide) (by decide) (by decide) (by decide) (by decide) (by decide)
      (by decide) (by decide) (by decide) (by decide) (by decide)
    rw [h]
    decide
  · have h := c5_hotplate_status_bool "STATUS_1" "12 1"
      (by decide) (by decide) (by decide) (by decide) (by decide) (by decide)
      (by decide) (by decide) (by decide) (by decide) (by decide)
    rw [h]
    decide

/-- C6: the failure counter is reset to zero (all other state unchanged)
by every successful exchange; each caught read timeout / OS error
increments it by one; when it reaches the ceiling `max_timeouts` the
connection is closed (and stays open otherwise); the ceiling is 10; and
on a closed connection the next call re-attempts a connect — a
successful attempt reopens the connection and the call proceeds to write. -/
theorem c6_failure_counter :
    (∀ (s : ClientState) (line : String),
      (handleCommunication s (.success line)).1 = { s with timeouts := 0 }) ∧
    (∀ s : ClientState,
      (handleCommunication s .failure).1.timeouts = s.timeouts + 1) ∧
    (∀ s : ClientState, s.timeouts + 1 = maxTimeouts →
      (handleCommunication s .failure).1.isOpen = false) ∧
    (∀ s : ClientState, s.timeouts + 1 ≠ maxTimeouts →
      (handleCommunication s .failure).1.isOpen = s.isOpen) ∧
    (∀ (s : ClientState) (command : String) (xo : CommOutcome),
      s.isOpen = false →
      (handleConnection s .ok).isOpen = true ∧
      (writeAndRead s command .ok xo).wrote = true) ∧
    maxTimeouts = 10 := by
  refine ⟨fun s line => rfl, ?_, ?_, ?_, ?_, rfl⟩
  · intro s
    unfold handleCommunication
    dsimp only
    split <;> rfl
  · intro s h
    unfold handleCommunication
    dsimp only
    rw [if_pos h]
  · intro s h
    unfold handleCommunication
    dsimp only
    rw [if_neg h]
  · intro s command xo h
    refine ⟨by simp [handleConnection, h], ?_⟩
    cases xo <;> simp [writeAndRead, handleConnection, handleCommunication, h]

/-- C6 witness: a success resets a counter of 7; failures climb 8 → 9;
the tenth consecutive failure closes the connection while an earlier one
leaves it open; and with the connection closed a successful connect
attempt reopens it and the next call writes. -/
theorem c6_failure_counter_witness :
    (handleCommunication ⟨true, 7, false⟩ (.success "100 4")).1 = ⟨true, 0, false⟩ ∧
    (handleCommunication ⟨true, 8, false⟩ .failure).1.timeouts = 9 ∧
    (handleCommunication ⟨true, 9, false⟩ .failure).1.isOpen = false ∧
    (handleCommunication ⟨true, 3, false⟩ .failure).1.isOpen = true ∧
    (handleConnection ⟨false, 10, false⟩ .ok).isOpen = true ∧
    (writeAndRead ⟨false, 10, false⟩ "IN_PV_3" .ok (.success "22.50 3")).wrote = true := by
  refine ⟨c6_failure_counter.1 ⟨true, 7, false⟩ "100 4",
    c6_failure_counter.2.1 ⟨true, 8, false⟩,
    c6_failure_counter.2.2.1 ⟨true, 9, false⟩ (by decide),
    c6_failure_counter.2.2.2.1 ⟨true, 3, false⟩ (by decide),
    (c6_failure_counter.2.2.2.2.1 ⟨false, 10, false⟩ "IN_PV_3" (.success "22.50 3") rfl).1,
    (c6_failure_counter.2.2.2.2.1 ⟨false, 10, false⟩ "IN_PV_3" (.success "22.50 3") rfl).2⟩

/-- C7 counterexample: the address `"a:b"` contains exactly one colon, so
construction succeeds — but what it stores as the port is the raw
substring `"b"`, which is not numeric: no numeric parsing or validation
of the port happens at construction time. -/
theorem c7_nonnumeric_port_counterexample :
    tcpInit "a:b" = .ok "a" "b" ∧ "b".data.all Char.isDigit = false := by
  exact ⟨by decide, by decide⟩

/-- C7 (amended): for every address of the shape `host ++ ":" ++ port`
with no further colons, construction succeeds and stores the host and
port SUBSTRINGS verbatim (the port is kept as an unvalidated string, not
converted to a number); for every address whose colon count differs from
one, construction fails with the descriptive `ValueError` before any
connection attempt. -/
theorem c7_address_parse :
    (∀ h p : List Char, ':' ∉ h → ':' ∉ p →
      tcpInit ⟨h ++ ':' :: p⟩ = .ok ⟨h⟩ ⟨p⟩) ∧
    (∀ a : String, a.data.count ':' ≠ 1 →
      tcpInit a = .error "address must be hostname:port") := by
  constructor
  · intro h p hh hp
    unfold tcpInit
    show (match pySplit ':' (h ++ ':' :: p) with
      | [h, p] => TcpInitResult.ok ⟨h⟩ ⟨p⟩
      | _ => TcpInitResult.error "address must be hostname:port") = TcpInitResult.ok ⟨h⟩ ⟨p⟩
    rw [pySplit_append ':' h p hh, pySplit_no_sep ':' p hp]
  · intro a ha
    apply tcpInit_error_of_len
    rw [pySplit_length]
    omega

/-- C7 witness: a well-formed `host:port` address parses into its two
pieces, and a colon-free or doubly-coloned address raises the
`ValueError`. -/
theorem c7_address_parse_witness :
    tcpInit "192.168.1.1:4012" = .ok "192.168.1.1" "4012" ∧
    tcpInit "nocolon" = .error "address must be hostname:port" ∧
    tcpInit "a:b:c" = .error "address must be hostname:port" := by
  refine ⟨?_, ?_, ?_⟩
  · exact c7_address_parse.1 "192.168.1.1".data "4012".data (by decide) (by decide)
  · exact c7_address_parse.2 "nocolon" (by decide)
  · exact c7_address_parse.2 "a:b:c" (by decide)

/-- C8: in every configuration reachable from concurrent `query` and
`command` calls sharing one `asyncio.Lock`, the wire trace never
interleaves two calls: nothing — no other call's write or read — appears
between a call's write and its response read, so the second call's write
begins strictly after the first call's write and read have completed, and
a `command` call's write never splits a `query` call's exchange. -/
theorem c8_queries_serialized (c : LockConfig) (h : LockReach c) :
    wireSerialized c.trace :=
  serTrace_noSplit (lockInv_serTrace (lockInv_reach h))

/-- C8 witness: a concrete run of one `query` task and one `command` task
(query 0 acquires, writes, reads, releases; then command 1 acquires and
writes) reaches the trace `[write 0, read 0, write 1]`, which the theorem
proves non-interleaved. -/
theorem c8_queries_serialized_witness :
    wireSerialized [LockEvent.write 0, LockEvent.read 0, LockEvent.write 1] := by
  have h0 : LockReach ⟨none, [queryProg, commandProg], []⟩ :=
    LockReach.init _ ⟨rfl, rfl, by decide⟩
  have h1 : LockReach ⟨some 0,
      [[LockInstr.write, LockInstr.read, LockInstr.release], commandProg], []⟩ :=
    LockReach.step _ _ h0
      (LockStep.acquire ⟨none, [queryProg, commandProg], []⟩ 0
        [LockInstr.write, LockInstr.read, LockInstr.release] (by decide) rfl)
  have h2 : LockReach ⟨some 0,
      [[LockInstr.read, LockInstr.release], commandProg], [LockEvent.write 0]⟩ :=
    LockReach.step _ _ h1
      (LockStep.write ⟨some 0,
        [[LockInstr.write, LockInstr.read, LockInstr.release], commandProg], []⟩ 0
        [LockInstr.read, LockInstr.release] (by decide))
  have h3 : LockReach ⟨some 0, [[LockInstr.release], commandProg],
      [LockEvent.write 0, LockEvent.read 0]⟩ :=
    LockReach.step _ _ h2
      (LockStep.read ⟨some 0,
        [[LockInstr.read, LockInstr.release], commandProg], [LockEvent.write 0]⟩ 0
        [LockInstr.release] (by decide))
  have h4 : LockReach ⟨none, [[], commandProg],
      [LockEvent.write 0, LockEvent.read 0]⟩ :=
    LockReach.step _ _ h3
      (LockStep.release ⟨some 0,
        [[LockInstr.release], commandProg], [LockEvent.write 0, LockEvent.read 0]⟩ 0
        [] (by decide))
  have h5 : LockReach ⟨some 1, [[], [LockInstr.write, LockInstr.release]],
      [LockEvent.write 0, LockEvent.read 0]⟩ :=
    LockReach.step _ _ h4
      (LockStep.acquire ⟨none, [[], commandProg],
          [LockEvent.write 0, LockEvent.read 0]⟩ 1
        [LockInstr.write, LockInstr.release] (by decide) rfl)
  have h6 : LockReach ⟨some 1, [[], [LockInstr.release]],
      [LockEvent.write 0, LockEvent.read 0, LockEvent.write 1]⟩ :=
    LockReach.step _ _ h5
      (LockStep.write ⟨some 1, [[], [LockInstr.write, LockInstr.release]],
          [LockEvent.write 0, LockEvent.read 0]⟩ 1
        [LockInstr.release] (by decide))
  exact c8_queries_serialized _ h6

/-- C9: the undocumented decoder branch — when no earlier branch fires,
the final characters match, and the response contains `"START_4"` or
`"STOP_4"` (the motor start/stop echo), `query` returns the boolean
`True`. -/
theorem c9_motor_echo_true (command response : String)
    (hid : identityCmd command = false)
    (hsent : pyIn "IN_PV_4" response = false)
    (hecho : pyIn command response = false)
    (hce : command.data.isEmpty = false)
    (hre : response.data.isEmpty = false)
    (hlast : lastChar command = lastChar response)
    (hs2 : pyIn "STATUS_2" command = false)
    (hs4 : pyIn "STATUS_4" command = false)
    (hmot : (pyIn "START_4" response || pyIn "STOP_4" response) = true) :
    decodeResponse command response = ⟨.ret (.bool true), false⟩ := by
  simp [decodeResponse, hid, hsent, hecho, hce, hre, hlast, hs2, hs4, hmot]

/-- C9 witness: command `"STOP_4"` answered by a line containing
`"START_4"` returns `True`. -/
theorem c9_motor_echo_true_witness :
    decodeResponse "STOP_4" "START_4" = ⟨.ret (.bool true), false⟩ :=
  c9_motor_echo_true "STOP_4" "START_4"
    (by decide) (by decide) (by decide) (by decide) (by decide) (by decide)
    (by decide) (by decide) (by decide)

/-- C10: a `query` issued while the connection is closed whose connect
attempt fails returns `None` without writing anything to the stream, and
the only state change is setting the `reconnecting` flag — in
particular the failure counter and the open flag are untouched. -/
theorem c10_failed_reconnect_frame (s : ClientState) (command : String)
    (xo : CommOutcome) (h : s.isOpen = false) :
    writeAndRead s command .failure xo =
      ⟨{ s with reconnecting := true }, .ret .none, false, false⟩ := by
  simp [writeAndRead, handleConnection, h]

/-- C10 witness: with the connection closed and four timeouts on the
counter, a failed reconnect leaves the counter at four, writes nothing and
returns `None`. -/
theorem c10_failed_reconnect_frame_witness :
    writeAndRead ⟨false, 4, false⟩ "IN_PV_1" .failure (.success "100 1") =
      ⟨⟨false, 4, true⟩, .ret .none, false, false⟩ :=
  c10_failed_reconnect_frame ⟨false, 4, false⟩ "IN_PV_1" (.success "100 1") rfl
